import Mathlib

/-
Verification of the Roster_Fc repository (roster_engine.py, app.py).

The development shallowly embeds the parts of the program the claims are
about:
  * the per-employee history counting and shift-DNA classification of
    load_and_analyze_data (roster_engine.py lines 45-63);
  * the CP-SAT constraint model built by generate_roster (lines 80-235):
    a solution returned by the solver is a valuation of all model
    variables satisfying every posted constraint, which we capture as a
    structure of variable valuations plus a Valid predicate holding one
    proposition per constraint the code adds to the model;
  * the result construction of generate_roster (lines 242-269);
  * the Find Replacement handler of app.py (lines 129-173).
-/

namespace RosterFc

/-! ### Calendar arithmetic

Embeds the pieces of Python datetime / calendar the engine uses:
calendar.monthrange(year, month)[1] (number of days) and
datetime.date(y, m, d).weekday() (Monday = 0 ... Sunday = 6),
via the proleptic Gregorian ordinal exactly as CPython computes it. -/

def isLeap (y : Nat) : Bool :=
  y % 4 == 0 && (y % 100 != 0 || y % 400 == 0)

def monthLengths (y : Nat) : List Nat :=
  [31, if isLeap y then 29 else 28, 31, 30, 31, 30, 31, 31, 30, 31, 30, 31]

/-- calendar.monthrange(y, m)[1] : the number of days of month m of year y. -/
def daysInMonth (y m : Nat) : Nat :=
  (monthLengths y).getD (m - 1) 0

def daysBeforeYear (y : Nat) : Nat :=
  365 * (y - 1) + ((y - 1) / 4 - (y - 1) / 100 + (y - 1) / 400)

def daysBeforeMonth (y m : Nat) : Nat :=
  ((monthLengths y).take (m - 1)).foldl (· + ·) 0

/-- date.toordinal(): day 1 is 0001-01-01 in the proleptic Gregorian calendar. -/
def toOrdinal (y m d : Nat) : Nat :=
  daysBeforeYear y + daysBeforeMonth y m + d

/-- date.weekday(): Monday = 0, ..., Saturday = 5, Sunday = 6. -/
def pyWeekday (y m d : Nat) : Nat :=
  (toOrdinal y m d + 6) % 7

/-! ### Week grouping (generate_roster lines 137-149)

Day indices 0 .. num_days-1 are appended to the current week, and the
week is closed after each Saturday; a trailing non-empty week (a short
week at the end of the month) is kept.  The weekday of day index d is
(fW + d) % 7 where fW is the weekday of the first of the month. -/

def weeksAux (fW : Nat) : List Nat → List Nat → List (List Nat)
  | [], cur => if cur.isEmpty then [] else [cur]
  | d :: rest, cur =>
      if (fW + d) % 7 = 5 then (cur ++ [d]) :: weeksAux fW rest []
      else weeksAux fW rest (cur ++ [d])

def weeksOf (numDays fW : Nat) : List (List Nat) :=
  weeksAux fW (List.range numDays) []

/-! ### Shift-DNA classification (load_and_analyze_data)

Lines 48-53 normalise each history cell with str(...).strip().upper()
and count cells equal to DAY and to NIGHT; lines 56-63 classify.
The strip/upper normalisation is embedded as a list-level trim of
surrounding whitespace followed by character uppercasing. -/

def trimChars (l : List Char) : List Char :=
  ((l.dropWhile Char.isWhitespace).reverse.dropWhile Char.isWhitespace).reverse

/-- str(val).strip().upper() applied to a cell already rendered as a string. -/
def normCell (s : String) : String :=
  String.mk ((trimChars s.data).map Char.toUpper)

/-- The counting loop of lines 45-53: fold over the date columns,
incrementing day_count on DAY cells and night_count on NIGHT cells. -/
def countShifts (cells : List String) : Nat × Nat :=
  cells.foldl
    (fun acc v =>
      let val := normCell v
      if val == "DAY" then (acc.1 + 1, acc.2)
      else if val == "NIGHT" then (acc.1, acc.2 + 1)
      else acc)
    (0, 0)

/-- The classification of lines 56-63. -/
def classifyDNA (day_count night_count : Nat) : String :=
  if 0 < day_count ∧ night_count = 0 then "Fixed_Day"
  else if 0 < night_count ∧ day_count = 0 then "Fixed_Night"
  else "Rotating"

/-! ### The CP-SAT model of generate_roster (lines 80-235)

Shift values: 0 = WO, 1 = Day, 2 = Night (line 91).  The solver returns
a valuation of every variable the code created; CPSol records those
valuations (as total functions over employee / day / week indices; the
model only constrains the indices the code iterates over) and Valid
holds one proposition per constraint posted on the model. -/

/-- The shift_map dictionary of line 245, rendering a solved value. -/
def shift_map (v : Nat) : String :=
  if v = 0 then "WO" else if v = 1 then "Day" else "Night"

/-- Valuation of the variables of one CpModel instance. -/
structure CPSol where
  x : Nat → Nat → Nat
  is_wo : Nat → Nat → Bool
  is_day : Nat → Nat → Bool
  is_night : Nat → Nat → Bool
  has_day : Nat → Nat → Bool
  has_night : Nat → Nat → Bool
  obj_is_d : Nat → Nat → Bool
  obj_is_n : Nat → Nat → Bool
  total_days : Nat → Nat
  total_nights : Nat → Nat
  total_work : Nat → Nat
  min_work : Nat
  max_work : Nat

/-- The pair model.Add(v == t).OnlyEnforceIf(b),
model.Add(v != t).OnlyEnforceIf(b.Not()). -/
def reifEq (b : Bool) (v t : Nat) : Prop :=
  (b = true → v = t) ∧ (b = false → v ≠ t)

instance (b : Bool) (v t : Nat) : Decidable (reifEq b v t) := by
  unfold reifEq; infer_instance

/-- sum(bool_vars) over 0/1 variables. -/
def bsum (l : List Bool) : Nat :=
  (l.map Bool.toNat).sum

/-- AddMinEquality target over a non-empty variable list. -/
def minList : List Nat → Nat
  | [] => 0
  | a :: t => t.foldl Nat.min a

/-- AddMaxEquality target over a non-empty variable list. -/
def maxList : List Nat → Nat
  | [] => 0
  | a :: t => t.foldl Nat.max a

/-- All constraints generate_roster posts on the model, for E employees
with DNA lookup dna, a month of numDays days whose first day has Python
weekday fW.  Fields follow the order of the source. -/
structure Valid (E numDays fW : Nat) (dna : Nat → String) (s : CPSol) : Prop where
  dom : ∀ e < E, ∀ d < numDays, s.x e d ≤ 2
  dnaDay : ∀ e < E, dna e = "Fixed_Day" → ∀ d < numDays, s.x e d ≠ 2
  dnaNight : ∀ e < E, dna e = "Fixed_Night" → ∀ d < numDays, s.x e d ≠ 1
  woReif : ∀ e < E, ∀ w ∈ weeksOf numDays fW, ∀ d ∈ w,
    reifEq (s.is_wo e d) (s.x e d) 0
  woFull : ∀ e < E, ∀ w ∈ weeksOf numDays fW, w.length = 7 →
    bsum (w.map (s.is_wo e)) = 2
  woShort : ∀ e < E, ∀ w ∈ weeksOf numDays fW, w.length ≠ 7 →
    bsum (w.map (s.is_wo e)) ≤ 2
  dayReif : ∀ e < E, ∀ w ∈ weeksOf numDays fW, ∀ d ∈ w,
    reifEq (s.is_day e d) (s.x e d) 1
  nightReif : ∀ e < E, ∀ w ∈ weeksOf numDays fW, ∀ d ∈ w,
    reifEq (s.is_night e d) (s.x e d) 2
  hasDayEq : ∀ e < E, ∀ i < (weeksOf numDays fW).length,
    s.has_day e i = ((weeksOf numDays fW).getD i []).any (s.is_day e)
  hasNightEq : ∀ e < E, ∀ i < (weeksOf numDays fW).length,
    s.has_night e i = ((weeksOf numDays fW).getD i []).any (s.is_night e)
  lock : ∀ e < E, ∀ i < (weeksOf numDays fW).length,
    (s.has_day e i).toNat + (s.has_night e i).toNat ≤ 1
  objDReif : ∀ e < E, ∀ d < numDays, reifEq (s.obj_is_d e d) (s.x e d) 1
  objNReif : ∀ e < E, ∀ d < numDays, reifEq (s.obj_is_n e d) (s.x e d) 2
  totalDaysEq : ∀ e < E,
    s.total_days e = bsum ((List.range numDays).map (s.obj_is_d e))
  totalNightsEq : ∀ e < E,
    s.total_nights e = bsum ((List.range numDays).map (s.obj_is_n e))
  totalWorkEq : ∀ e < E, s.total_work e = s.total_days e + s.total_nights e
  minEq : 0 < E → s.min_work = minList ((List.range E).map s.total_work)
  maxEq : 0 < E → s.max_work = maxList ((List.range E).map s.total_work)

/-- model.Minimize(max_work - min_work), line 235: the single objective
expression of the model. -/
def objectiveExpr (s : CPSol) : Nat :=
  s.max_work - s.min_work

/-- The spec-side totalWork(e): the number of days of the month on which
employee e is assigned a non-rest state. -/
def specTotalWork (numDays : Nat) (x : Nat → Nat → Nat) (e : Nat) : Nat :=
  ((List.range numDays).filter (fun d => !(x e d == 0))).length

/-- The spec-side fairness spread:
max over employees of totalWork minus min over employees of totalWork. -/
def specSpread (E numDays : Nat) (x : Nat → Nat → Nat) : Nat :=
  maxList ((List.range E).map (specTotalWork numDays x)) -
    minList ((List.range E).map (specTotalWork numDays x))

/-! ### A concrete solved instance (March 2026, three employees)

Used by the witnesses: one Fixed_Day, one Fixed_Night, one Rotating
employee, two WO days at the start of each week. -/

def demoDna : Nat → String :=
  fun e => if e = 0 then "Fixed_Day" else if e = 1 then "Fixed_Night" else "Rotating"

def demoX : Nat → Nat → Nat :=
  fun e d => if d % 7 ≤ 1 then 0 else if e = 1 then 2 else 1

def demoSol : CPSol where
  x := demoX
  is_wo := fun e d => demoX e d == 0
  is_day := fun e d => demoX e d == 1
  is_night := fun e d => demoX e d == 2
  has_day := fun e _ => !(e == 1)
  has_night := fun e _ => e == 1
  obj_is_d := fun e d => demoX e d == 1
  obj_is_n := fun e d => demoX e d == 2
  total_days := fun e => if e = 1 then 0 else 21
  total_nights := fun e => if e = 1 then 21 else 0
  total_work := fun _ => 21
  min_work := 21
  max_work := 21

/-! ### Result construction (generate_roster lines 237-269)

On OPTIMAL or FEASIBLE the code builds one row per employee holding the
rendered shift of every day plus the two derived totals and returns
(result_df, None); otherwise it returns (None, message).  The solver
outcome is abstracted as Option CPSol: some solution or none. -/

structure ResultRow where
  shifts : List String
  totalWorkHours : Nat
  totalShifts : Nat
deriving DecidableEq

def buildRow (numDays : Nat) (s : CPSol) (e : Nat) : ResultRow where
  shifts := (List.range numDays).map (fun d => shift_map (s.x e d))
  totalWorkHours := (s.total_days e + s.total_nights e) * 9
  totalShifts := s.total_days e + s.total_nights e

def generate_roster_result (E numDays : Nat) (sol : Option CPSol) :
    Option (List ResultRow) × Option String :=
  match sol with
  | some s => (some ((List.range E).map (buildRow numDays s)), none)
  | none => (none, some "No feasible roster found. Constraints might be too strict.")

/-! ### The Find Replacement handler (app.py lines 129-173)

A roster row as the handler reads it: identifier, Name, Shift DNA, the
per-date cells and the Total Shifts column. -/

structure RRow where
  empId : Nat
  name : String
  dna : String
  shifts : List String
  totalShifts : Nat
deriving DecidableEq

def shiftOn (r : RRow) (d : Nat) : String :=
  r.shifts.getD d ""

/-- Line 136: the absent-employee dropdown offers only employees whose
state on the selected date is Day or Night. -/
def workingOnDate (rows : List RRow) (d : Nat) : List RRow :=
  rows.filter (fun r => shiftOn r d == "Day" || shiftOn r d == "Night")

/-- Line 150: candidates must be on WO on the selected date. -/
def restingCandidates (rows : List RRow) (d : Nat) : List RRow :=
  rows.filter (fun r => shiftOn r d == "WO")

/-- Lines 155-158: the DNA compatibility filter. -/
def compatFilter (sh : String) (cands : List RRow) : List RRow :=
  if sh == "Night" then cands.filter (fun r => r.dna != "Fixed_Day")
  else if sh == "Day" then cands.filter (fun r => r.dna != "Fixed_Night")
  else cands

def rankLE (a b : RRow) : Prop :=
  a.totalShifts ≤ b.totalShifts

instance : DecidableRel rankLE :=
  fun a b => Nat.decLe a.totalShifts b.totalShifts

instance : IsTotal RRow rankLE :=
  ⟨fun a b => Nat.le_total a.totalShifts b.totalShifts⟩

instance : IsTrans RRow rankLE :=
  ⟨fun _ _ _ h1 h2 => Nat.le_trans h1 h2⟩

/-- Line 161: candidates.sort_values(by='Total Shifts', ascending=True).
The code passes the single key Total Shifts and pandas' default
quicksort (numpy introsort), whose contract is only: output sorted
ascending by the key and a permutation of the input; the relative order
of tied elements is unspecified (the sort is unstable above numpy's
small-array insertion-sort threshold).  The model realises that
contract with an insertion sort; theorems about it use only the
sortedness and permutation properties that any conforming sort
guarantees.  On inputs below the small-array threshold numpy introsort
is itself exactly an insertion sort, so on such inputs (as in the
two-element counterexample trace below) the model's output is the
program's. -/
def rankCandidates (cands : List RRow) : List RRow :=
  List.insertionSort rankLE cands

/-- Lines 142-161: look up the absent employee by name (iloc[0] on the
name-filtered frame), read the absent shift on the selected date, filter
and rank candidates.  The code has no error branch: the only
non-proceeding outcome is the by-name lookup finding no row (a Python
IndexError), embedded as none. -/
def findReplacement (rows : List RRow) (d : Nat) (name : String) :
    Option (List RRow) :=
  match (rows.filter (fun r => r.name == name)).head? with
  | none => none
  | some a =>
      some (rankCandidates (compatFilter (shiftOn a d) (restingCandidates rows d)))

/-- The ranking the claim asserts: ascending by Total Shifts with ties
ordered by employee identifier. -/
def rankedByShiftsThenId : List RRow → Bool
  | [] => true
  | [_] => true
  | a :: b :: t =>
      (Nat.blt a.totalShifts b.totalShifts ||
        (a.totalShifts == b.totalShifts && Nat.ble a.empId b.empId)) &&
      rankedByShiftsThenId (b :: t)

/-- Concrete roster rows for the replacement-handler witnesses. -/
def appRows : List RRow :=
  [⟨1, "Asha", "Fixed_Day", ["Day", "WO"], 20⟩,
   ⟨2, "Bela", "Fixed_Night", ["WO", "Night"], 18⟩,
   ⟨3, "Chen", "Rotating", ["WO", "Day"], 15⟩]

/-- Rows with two tied resting candidates whose roster order is opposite
to their identifier order. -/
def exRowsC6 : List RRow :=
  [⟨0, "Xav", "Rotating", ["Day"], 6⟩,
   ⟨2, "Bela", "Rotating", ["WO"], 5⟩,
   ⟨1, "Asha", "Rotating", ["WO"], 5⟩]

/-- Rows whose by-name lookup for Asha yields a resting employee. -/
def exRowsC9 : List RRow :=
  [⟨1, "Asha", "Rotating", ["WO"], 4⟩,
   ⟨2, "Bela", "Rotating", ["Day"], 5⟩]

/-! ### Theorems -/

theorem countShifts_go (cells : List String) :
    ∀ acc : Nat × Nat,
      cells.foldl
        (fun acc v =>
          let val := normCell v
          if val == "DAY" then (acc.1 + 1, acc.2)
          else if val == "NIGHT" then (acc.1, acc.2 + 1)
          else acc)
        acc =
      (acc.1 + (cells.filter (fun s => normCell s == "DAY")).length,
       acc.2 + (cells.filter (fun s => normCell s == "NIGHT")).length) := by
  induction cells with
  | nil => intro acc; simp
  | cons c tl ih =>
      intro acc
      by_cases hd : normCell c == "DAY"
      · simp only [List.foldl_cons, List.filter_cons, hd, if_pos]
        rw [ih]
        have hn : (normCell c == "NIGHT") = false := by
          rcases h : normCell c == "NIGHT" with _ | _
          · rfl
          · exfalso
            have h1 : normCell c = "DAY" := by simpa using hd
            have h2 : normCell c = "NIGHT" := by simpa using h
            rw [h1] at h2
            exact absurd h2 (by decide)
        simp [hd, hn]
        omega
      · have hd' : (normCell c == "DAY") = false := by
          simpa using hd
        by_cases hn : normCell c == "NIGHT"
        · simp only [List.foldl_cons, List.filter_cons, hd', hn]
          rw [ih]
          simp [hd', hn]
          omega
        · have hn' : (normCell c == "NIGHT") = false := by simpa using hn
          simp only [List.foldl_cons, List.filter_cons, hd', hn']
          rw [ih]
          simp [hd', hn']

/-- C3: the classifier is a total function of the two counts; it returns
Fixed_Day exactly when day_count > 0 and night_count = 0, Fixed_Night
exactly when night_count > 0 and day_count = 0, and Rotating in every
other case (both zero or both positive).  Totality and purity are
immediate from classifyDNA being a Lean function. -/
theorem classifier_cases (day_count night_count : Nat) :
    (classifyDNA day_count night_count = "Fixed_Day" ↔
      0 < day_count ∧ night_count = 0) ∧
    (classifyDNA day_count night_count = "Fixed_Night" ↔
      0 < night_count ∧ day_count = 0) ∧
    (classifyDNA day_count night_count = "Rotating" ↔
      (day_count = 0 ∧ night_count = 0) ∨ (0 < day_count ∧ 0 < night_count)) := by
  unfold classifyDNA
  split_ifs with h1 h2
  · refine ⟨by simp [h1], ?_, ?_⟩
    · constructor
      · intro h; exact absurd h (by decide)
      · intro h; omega
    · constructor
      · intro h; exact absurd h (by decide)
      · intro h; omega
  · refine ⟨?_, by simp [h2], ?_⟩
    · constructor
      · intro h; exact absurd h (by decide)
      · intro h; omega
    · constructor
      · intro h; exact absurd h (by decide)
      · intro h; omega
  · refine ⟨?_, ?_, by simp; omega⟩
    · constructor
      · intro h; exact absurd h (by decide)
      · intro h; omega
    · constructor
      · intro h; exact absurd h (by decide)
      · intro h; omega

/-- C10: a history cell counts toward day_count exactly when its
normalised form (trimmed, uppercased) is DAY, toward night_count exactly
when it is NIGHT; any other value contributes to neither, so a history
of only such values yields counts (0,0) and classification Rotating. -/
theorem history_cell_counting (cells : List String) :
    countShifts cells =
      ((cells.filter (fun s => normCell s == "DAY")).length,
       (cells.filter (fun s => normCell s == "NIGHT")).length) ∧
    ((∀ s ∈ cells, normCell s ≠ "DAY" ∧ normCell s ≠ "NIGHT") →
      classifyDNA (countShifts cells).1 (countShifts cells).2 = "Rotating") := by
  have hgo := countShifts_go cells (0, 0)
  constructor
  · simpa [countShifts] using hgo
  · intro hall
    have hday : (cells.filter (fun s => normCell s == "DAY")) = [] := by
      apply List.filter_eq_nil_iff.mpr
      intro s hs
      simpa using (hall s hs).1
    have hnight : (cells.filter (fun s => normCell s == "NIGHT")) = [] := by
      apply List.filter_eq_nil_iff.mpr
      intro s hs
      simpa using (hall s hs).2
    have h0 : countShifts cells = (0, 0) := by
      rw [countShifts, hgo, hday, hnight]
      rfl
    rw [h0]
    rfl

/-- Witness for C10 at a history containing only non-shift values. -/
theorem history_cell_counting_witness :
    classifyDNA (countShifts ["WO", " nan", "", "Off"]).1
      (countShifts ["WO", " nan", "", "Off"]).2 = "Rotating" :=
  (history_cell_counting ["WO", " nan", "", "Off"]).2 (by decide)

theorem reifEq_eq {b : Bool} {v t : Nat} (h : reifEq b v t) :
    b = (v == t) := by
  rcases hb : b with _ | _
  · have := h.2 hb
    simp [this]
  · have := h.1 hb
    simp [this]

theorem bsum_reif (w : List Nat) (b : Nat → Bool) (v : Nat → Nat) (t : Nat)
    (h : ∀ d ∈ w, reifEq (b d) (v d) t) :
    bsum (w.map b) = (w.filter (fun d => v d == t)).length := by
  induction w with
  | nil => rfl
  | cons a tl ih =>
      have ha := reifEq_eq (h a (List.mem_cons_self a tl))
      have htl := ih (fun d hd => h d (List.mem_cons_of_mem a hd))
      rcases hv : (v a == t) with _ | _
      · rw [hv] at ha
        simp [bsum, List.filter_cons, ha, hv] at htl ⊢
        omega
      · rw [hv] at ha
        simp [bsum, List.filter_cons, ha, hv] at htl ⊢
        omega

theorem weeksAux_mem_sub (fW : Nat) :
    ∀ (l cur w : List Nat) (d : Nat),
      w ∈ weeksAux fW l cur → d ∈ w → d ∈ cur ∨ d ∈ l := by
  intro l
  induction l with
  | nil =>
      intro cur w d hw hd
      unfold weeksAux at hw
      rcases hcur : cur.isEmpty with _ | _
      · rw [hcur] at hw
        simp at hw
        subst hw
        exact Or.inl hd
      · rw [hcur] at hw
        simp at hw
  | cons a rest ih =>
      intro cur w d hw hd
      unfold weeksAux at hw
      by_cases hsat : (fW + a) % 7 = 5
      · rw [if_pos hsat] at hw
        rcases List.mem_cons.mp hw with hw1 | hw2
        · subst hw1
          rcases List.mem_append.mp hd with h1 | h2
          · exact Or.inl h1
          · have hda : d = a := by simpa using h2
            exact Or.inr (hda ▸ List.mem_cons_self a rest)
        · rcases ih [] w d hw2 hd with h1 | h2
          · simp at h1
          · exact Or.inr (List.mem_cons_of_mem a h2)
      · rw [if_neg hsat] at hw
        rcases ih (cur ++ [a]) w d hw hd with h1 | h2
        · rcases List.mem_append.mp h1 with h3 | h4
          · exact Or.inl h3
          · have hda : d = a := by simpa using h4
            exact Or.inr (hda ▸ List.mem_cons_self a rest)
        · exact Or.inr (List.mem_cons_of_mem a h2)

theorem weeksOf_mem_lt (numDays fW : Nat) (w : List Nat) (d : Nat)
    (hw : w ∈ weeksOf numDays fW) (hd : d ∈ w) : d < numDays := by
  rcases weeksAux_mem_sub fW (List.range numDays) [] w d hw hd with h1 | h2
  · simp at h1
  · exact List.mem_range.mp h2

theorem shift_map_wo (v : Nat) : (shift_map v == "WO") = (v == 0) := by
  rcases v with _ | _ | v <;> rfl

theorem shift_map_day {v : Nat} (h : shift_map v = "Day") : v = 1 := by
  unfold shift_map at h
  split_ifs at h with h0 h1
  · exact absurd h (by decide)
  · exact h1
  · exact absurd h (by decide)

theorem shift_map_night {v : Nat} (h : shift_map v = "Night") :
    v ≠ 0 ∧ v ≠ 1 := by
  unfold shift_map at h
  split_ifs at h with h0 h1
  · exact absurd h (by decide)
  · exact absurd h (by decide)
  · exact ⟨h0, h1⟩

theorem demoValid :
    Valid 3 (daysInMonth 2026 3) (pyWeekday 2026 3 1) demoDna demoSol := by
  constructor <;> decide

/-- C1: in any model solution, every employee has exactly 2 WO days in
every full Sunday-through-Saturday week, and at most 2 WO days in every
week (in particular in the short weeks at the month boundary). -/
theorem weekly_rest_quota (E y m : Nat) (dna : Nat → String) (s : CPSol)
    (hv : Valid E (daysInMonth y m) (pyWeekday y m 1) dna s) :
    ∀ e < E, ∀ w ∈ weeksOf (daysInMonth y m) (pyWeekday y m 1),
      (w.length = 7 →
        (w.filter (fun d => shift_map (s.x e d) == "WO")).length = 2) ∧
      (w.filter (fun d => shift_map (s.x e d) == "WO")).length ≤ 2 := by
  intro e he w hw
  have hr := bsum_reif w (s.is_wo e) (s.x e) 0 (hv.woReif e he w hw)
  have hfilter : w.filter (fun d => shift_map (s.x e d) == "WO") =
      w.filter (fun d => s.x e d == 0) := by
    simp only [shift_map_wo]
  rw [hfilter, ← hr]
  constructor
  · exact hv.woFull e he w hw
  · by_cases hlen : w.length = 7
    · rw [hv.woFull e he w hw hlen]
    · exact hv.woShort e he w hw hlen

/-- Witness for C1 at a concrete solved instance. -/
theorem weekly_rest_quota_witness :
    (([0, 1, 2, 3, 4, 5, 6] :
        List Nat).filter (fun d => shift_map (demoSol.x 0 d) == "WO")).length = 2 :=
  (weekly_rest_quota 3 2026 3 demoDna demoSol demoValid 0 (by decide)
    [0, 1, 2, 3, 4, 5, 6] (by decide)).1 (by decide)

/-- C2: in any model solution, within one Sunday-through-Saturday week an
employee never has a Day assignment on one day and a Night assignment on
another day, i.e. the non-rest states used in one week form a set of
size at most 1. -/
theorem weekly_shift_lock (E y m : Nat) (dna : Nat → String) (s : CPSol)
    (hv : Valid E (daysInMonth y m) (pyWeekday y m 1) dna s) :
    ∀ e < E, ∀ w ∈ weeksOf (daysInMonth y m) (pyWeekday y m 1),
      ∀ d1 ∈ w, ∀ d2 ∈ w,
        ¬(shift_map (s.x e d1) = "Day" ∧ shift_map (s.x e d2) = "Night") := by
  intro e he w hw d1 hd1 d2 hd2
  rintro ⟨hDay, hNight⟩
  have hx1 : s.x e d1 = 1 := shift_map_day hDay
  have hd2lt := weeksOf_mem_lt _ _ w d2 hw hd2
  have hdom := hv.dom e he d2 hd2lt
  have hne := shift_map_night hNight
  have hx2 : s.x e d2 = 2 := by omega
  obtain ⟨i, hi, hgi⟩ := List.mem_iff_getElem.mp hw
  have hgD : (weeksOf (daysInMonth y m) (pyWeekday y m 1)).getD i [] = w := by
    rw [List.getD_eq_getElem _ _ hi]
    exact hgi
  have hisday : s.is_day e d1 = true := by
    have h := reifEq_eq (hv.dayReif e he w hw d1 hd1)
    rw [h, hx1]
    rfl
  have hisnight : s.is_night e d2 = true := by
    have h := reifEq_eq (hv.nightReif e he w hw d2 hd2)
    rw [h, hx2]
    rfl
  have hhd : s.has_day e i = true := by
    rw [hv.hasDayEq e he i hi, hgD]
    exact List.any_eq_true.mpr ⟨d1, hd1, hisday⟩
  have hhn : s.has_night e i = true := by
    rw [hv.hasNightEq e he i hi, hgD]
    exact List.any_eq_true.mpr ⟨d2, hd2, hisnight⟩
  have hlock := hv.lock e he i hi
  rw [hhd, hhn] at hlock
  simp at hlock

/-- Witness for C2 at a concrete solved instance. -/
theorem weekly_shift_lock_witness :
    ¬(shift_map (demoSol.x 2 2) = "Day" ∧ shift_map (demoSol.x 2 3) = "Night") :=
  weekly_shift_lock 3 2026 3 demoDna demoSol demoValid 2 (by decide)
    [0, 1, 2, 3, 4, 5, 6] (by decide) 2 (by decide) 3 (by decide)

/-- C4: in any model solution, a Fixed_Day employee has no Night
assignment on any day of the month and a Fixed_Night employee has no Day
assignment; Rotating employees are unconstrained by this rule. -/
theorem affinity_respected (E y m : Nat) (dna : Nat → String) (s : CPSol)
    (hv : Valid E (daysInMonth y m) (pyWeekday y m 1) dna s) :
    ∀ e < E,
      (dna e = "Fixed_Day" →
        ∀ d < daysInMonth y m, shift_map (s.x e d) ≠ "Night") ∧
      (dna e = "Fixed_Night" →
        ∀ d < daysInMonth y m, shift_map (s.x e d) ≠ "Day") := by
  intro e he
  constructor
  · intro hdna d hd hcon
    have h2 := hv.dnaDay e he hdna d hd
    have hdom := hv.dom e he d hd
    have hne := shift_map_night hcon
    omega
  · intro hdna d hd hcon
    exact hv.dnaNight e he hdna d hd (shift_map_day hcon)

/-- Witness for C4 at a concrete solved instance. -/
theorem affinity_respected_witness :
    shift_map (demoSol.x 0 5) ≠ "Night" :=
  (affinity_respected 3 2026 3 demoDna demoSol demoValid 0 (by decide)).1
    rfl 5 (by decide)

theorem filter_ne_split (l : List Nat) (v : Nat → Nat)
    (hdom : ∀ d ∈ l, v d ≤ 2) :
    (l.filter (fun d => !(v d == 0))).length =
      (l.filter (fun d => v d == 1)).length +
        (l.filter (fun d => v d == 2)).length := by
  induction l with
  | nil => rfl
  | cons a tl ih =>
      have ha := hdom a (List.mem_cons_self a tl)
      have ih2 := ih (fun d hd => hdom d (List.mem_cons_of_mem a hd))
      have hcase : v a = 0 ∨ v a = 1 ∨ v a = 2 := by omega
      rcases hcase with h | h | h <;>
        simp only [List.filter_cons, h] <;> simp <;> omega

theorem total_work_spec (E numDays fW : Nat) (dna : Nat → String) (s : CPSol)
    (hv : Valid E numDays fW dna s) (e : Nat) (he : e < E) :
    s.total_work e = specTotalWork numDays s.x e := by
  have hd := bsum_reif (List.range numDays) (s.obj_is_d e) (s.x e) 1
    (fun d hdm => hv.objDReif e he d (List.mem_range.mp hdm))
  have hn := bsum_reif (List.range numDays) (s.obj_is_n e) (s.x e) 2
    (fun d hdm => hv.objNReif e he d (List.mem_range.mp hdm))
  have hsplit := filter_ne_split (List.range numDays) (s.x e)
    (fun d hdm => hv.dom e he d (List.mem_range.mp hdm))
  rw [hv.totalWorkEq e he, hv.totalDaysEq e he, hv.totalNightsEq e he, hd, hn]
  unfold specTotalWork
  omega

/-- C5: the model's sole objective expression, max_work - min_work,
equals the spread of total worked (non-rest) days across employees; no
other soft term exists in the model (line 235 posts the one Minimize
call). -/
theorem objective_is_work_spread (E y m : Nat) (dna : Nat → String)
    (s : CPSol) (hE : 0 < E)
    (hv : Valid E (daysInMonth y m) (pyWeekday y m 1) dna s) :
    objectiveExpr s = specSpread E (daysInMonth y m) s.x := by
  have hmap : (List.range E).map s.total_work =
      (List.range E).map (specTotalWork (daysInMonth y m) s.x) :=
    List.map_congr_left (fun e hme =>
      total_work_spec E (daysInMonth y m) (pyWeekday y m 1) dna s hv e
        (List.mem_range.mp hme))
  unfold objectiveExpr specSpread
  rw [hv.maxEq hE, hv.minEq hE, hmap]

/-- Witness for C5 at a concrete solved instance. -/
theorem objective_is_work_spread_witness :
    objectiveExpr demoSol = specSpread 3 (daysInMonth 2026 3) demoSol.x :=
  objective_is_work_spread 3 2026 3 demoDna demoSol (by decide) demoValid

/-- C8: the solve returns exactly one of two shapes: on a solution, a
complete roster (one rendered state per employee per calendar day, with
the per-employee totals) and no error; with no solution, no roster and
the diagnostic message.  No partial roster can escape a failed solve. -/
theorem solve_result_dichotomy (E numDays : Nat) (sol : Option CPSol) :
    (∃ r, generate_roster_result E numDays sol = (some r, none) ∧
        r.length = E ∧ ∀ row ∈ r, row.shifts.length = numDays) ∨
      generate_roster_result E numDays sol =
        (none, some "No feasible roster found. Constraints might be too strict.") := by
  rcases sol with _ | s
  · right
    rfl
  · left
    refine ⟨(List.range E).map (buildRow numDays s), rfl, by simp, ?_⟩
    intro row hrow
    rcases List.mem_map.mp hrow with ⟨e, _, he⟩
    rw [← he]
    simp [buildRow]

/-- C7: for a Day or Night absence, the post-filter candidate set is
exactly the employees resting (WO) on the date, minus Fixed_Day
employees when the absence is Night and minus Fixed_Night employees
when it is Day; a Rotating candidate resting on the date always
qualifies (it satisfies both exclusion negations). -/
theorem replacement_candidate_set (rows : List RRow) (d : Nat) (sh : String)
    (r : RRow) (hsh : sh = "Day" ∨ sh = "Night") :
    r ∈ compatFilter sh (restingCandidates rows d) ↔
      r ∈ rows ∧ shiftOn r d = "WO" ∧
        ¬(sh = "Night" ∧ r.dna = "Fixed_Day") ∧
        ¬(sh = "Day" ∧ r.dna = "Fixed_Night") := by
  rcases hsh with h | h
  · subst h
    have hcf : compatFilter "Day" (restingCandidates rows d) =
        (restingCandidates rows d).filter (fun r => r.dna != "Fixed_Night") := rfl
    rw [hcf]
    have hDN : ("Day" : String) ≠ "Night" := by decide
    simp [restingCandidates, List.mem_filter, hDN, and_assoc]
    tauto
  · subst h
    have hcf : compatFilter "Night" (restingCandidates rows d) =
        (restingCandidates rows d).filter (fun r => r.dna != "Fixed_Day") := rfl
    rw [hcf]
    have hND : ("Night" : String) ≠ "Day" := by decide
    simp [restingCandidates, List.mem_filter, hND, and_assoc]
    tauto

/-- Witness for C7: Bela (Fixed_Night, resting) is excluded for a Day
absence while Chen (Rotating, resting) is not. -/
theorem replacement_candidate_set_witness :
    (⟨2, "Bela", "Fixed_Night", ["WO", "Night"], 18⟩ : RRow) ∈
        compatFilter "Day" (restingCandidates appRows 0) ↔
      (⟨2, "Bela", "Fixed_Night", ["WO", "Night"], 18⟩ : RRow) ∈ appRows ∧
        shiftOn (⟨2, "Bela", "Fixed_Night", ["WO", "Night"], 18⟩ : RRow) 0 = "WO" ∧
        ¬(("Day" : String) = "Night" ∧
          (⟨2, "Bela", "Fixed_Night", ["WO", "Night"], 18⟩ : RRow).dna = "Fixed_Day") ∧
        ¬(("Day" : String) = "Day" ∧
          (⟨2, "Bela", "Fixed_Night", ["WO", "Night"], 18⟩ : RRow).dna = "Fixed_Night") :=
  replacement_candidate_set appRows 0 "Day"
    ⟨2, "Bela", "Fixed_Night", ["WO", "Night"], 18⟩ (Or.inl rfl)

/-- C6 counterexample: a query whose two resting candidates are tied on
Total Shifts and stand in the roster in decreasing identifier order is
returned in that same order, so the ranking the claim asserts (ties
ordered by employee identifier) is false: the returned identifiers are
[2, 1].  This two-element trace is exact for the program: below numpy's
small-array threshold its introsort runs an insertion sort, which keeps
the tied pair in roster order. -/
theorem ranking_no_id_tiebreak :
    (findReplacement exRowsC6 0 "Xav").map (fun l => l.map RRow.empId) =
        some [2, 1] ∧
      (findReplacement exRowsC6 0 "Xav").map rankedByShiftsThenId =
        some false := by
  constructor
  · rfl
  · rfl

/-- C6 (amended): the replacement ranking sorts the compatibility-filtered
resting candidates ascending by Total Shifts and is a permutation of
them; no identifier tie-break is applied, and the relative order of
candidates tied on Total Shifts is unspecified. -/
theorem replacement_ranking (rows : List RRow) (d : Nat) (name : String)
    (l : List RRow) (h : findReplacement rows d name = some l) :
    List.Sorted rankLE l ∧
      ∃ a, (rows.filter (fun r => r.name == name)).head? = some a ∧
        l.Perm (compatFilter (shiftOn a d) (restingCandidates rows d)) := by
  unfold findReplacement at h
  rcases hh : (rows.filter (fun r => r.name == name)).head? with _ | a
  · rw [hh] at h
    simp at h
  · rw [hh] at h
    simp only [Option.some.injEq] at h
    subst h
    exact ⟨List.sorted_insertionSort rankLE _, a, hh,
      List.perm_insertionSort rankLE _⟩

/-- Witness for C6 (amended) at a concrete query. -/
theorem replacement_ranking_witness :
    List.Sorted rankLE [(⟨3, "Chen", "Rotating", ["WO", "Day"], 15⟩ : RRow)] :=
  (replacement_ranking appRows 0 "Asha"
    [⟨3, "Chen", "Rotating", ["WO", "Day"], 15⟩] (by rfl)).1

/-- C9 counterexample: a replacement request for an employee resting
(WO) on the target date proceeds to a recommendation; no usage error of
any kind is signalled (the handler has no error branch at all). -/
theorem rest_absence_proceeds :
    shiftOn (⟨1, "Asha", "Rotating", ["WO"], 4⟩ : RRow) 0 = "WO" ∧
      (findReplacement exRowsC9 0 "Asha").isSome = true := by
  constructor
  · rfl
  · rfl

/-- C9 (amended): the system guards against replacing a resting employee
only through the selection UI: the absent-employee choices are exactly
the employees whose state on the date is Day or Night, so a resting
employee is never offered; the handler itself signals no
InvalidAbsenceStateError and proceeds if given a resting employee. -/
theorem absence_selection_excludes_rest (rows : List RRow) (d : Nat) (r : RRow) :
    r ∈ workingOnDate rows d ↔
      r ∈ rows ∧ (shiftOn r d = "Day" ∨ shiftOn r d = "Night") := by
  simp [workingOnDate, List.mem_filter]

end RosterFc
